import Mathlib

/-!
Shallow embedding of the ConflictGame scenario navigator
(`src/js/game-engine.js`, class `GameEngine`) and of the storage manager
(class `StorageManager`).

Modelling conventions:
* JS values that may be `undefined`/`null` are modelled as `Option`;
  JS string truthiness (the empty string is falsy) is `truthyStr`.
* JS objects are truthy whenever present, so object-valued fields are
  `Option` of a structure and their truthiness is `Option.isSome`.
* A JS `throw` is an `Except.error`; in the source every throw happens
  before any state mutation, so an `error` result carries no new state and
  the caller keeps the engine unchanged, exactly as in the JS code.
* `localStorage` is modelled by threading the parsed stored object
  (`StorageData`) through the operations; `loadData`/`saveData` round-trip
  through JSON and merging with defaults is the identity on a well-typed
  stored object.
* The async `fetch` of scenario content is modelled by its outcome
  (`Option Scenario`): `none` when the request fails or the body does not
  parse, `some doc` when a parsed document is obtained.
* `new Date().toISOString()` is an external input, passed as the `ts`
  argument of `makeChoice`.
-/

/-- JS truthiness of an optional string: `undefined`, `null` and `""` are falsy. -/
def truthyStr : Option String → Bool
  | none => false
  | some v => v != ""

/-- Choice gating data (`choice.requirements`). Arrays are truthy in JS even
when empty, so presence is `Option`. -/
structure Requirements where
  previousChoices : Option (List String)
  forbiddenChoices : Option (List String)
  deriving DecidableEq, Repr

/-- An edge of the scenario graph (`choice`). -/
structure Choice where
  id : String
  text : String
  strategy : Option String
  nextNode : Option String
  requirements : Option Requirements
  deriving DecidableEq, Repr

/-- One node of the scenario graph. The `content`/`feedback` payloads are
presentation-only and never read by the navigator, so they are omitted. -/
structure Node where
  type : Option String
  choices : Option (List Choice)
  deriving DecidableEq, Repr

/-- Scenario metadata; descriptive only, the navigator tests only presence. -/
structure Metadata where
  title : Option String
  deriving DecidableEq, Repr

/-- A scenario document as parsed from JSON (fields may be absent). `nodes` is
the JS object `nodeId -> Node`, kept as an association list in key order. -/
structure Scenario where
  id : Option String
  metadata : Option Metadata
  nodes : Option (List (String × Node))
  deriving DecidableEq, Repr

/-- JS object property lookup `nodes[key]` (parsed JSON objects have unique
keys; first binding wins). -/
def findNode (ns : List (String × Node)) (k : String) : Option Node :=
  (ns.find? (fun p => p.1 == k)).map (fun p => p.2)

/-- One element of `choiceHistory` (`game-engine.js:198-204`). `nodeId` is the
node the choice was made from; it is `Option` because snapshots restored by
`resumeFromProgress` are trusted verbatim. -/
structure HistoryEntry where
  nodeId : Option String
  choiceId : String
  choiceText : String
  strategy : Option String
  timestamp : String
  deriving DecidableEq, Repr

/-- The navigator's mutable state (fields of class `GameEngine`). -/
structure GameEngine where
  currentScenario : Option Scenario
  currentNode : Option String
  choiceHistory : List HistoryEntry
  deriving DecidableEq, Repr

/-- The engine state right after the constructor / after loading `sc`
(`currentNode = 'start'`, empty history). -/
def initEngine (sc : Scenario) : GameEngine :=
  { currentScenario := some sc, currentNode := some "start", choiceHistory := [] }

/-- GameEngine.getCurrentNode (`game-engine.js:264-270`). Returns `null` when
no scenario is loaded or `currentNode` is falsy, else `nodes[currentNode]`. -/
def getCurrentNode (e : GameEngine) : Option Node :=
  match e.currentScenario with
  | none => none
  | some sc =>
    if truthyStr e.currentNode then
      match sc.nodes, e.currentNode with
      | some ns, some cn => findNode ns cn
      | _, _ => none
    else none

/-- The gating predicate applied by `getAvailableChoices`
(`game-engine.js:282-305`): requirements absent, or all `previousChoices`
already made and no `forbiddenChoices` made. -/
def choicePasses (hist : List HistoryEntry) (c : Choice) : Bool :=
  match c.requirements with
  | none => true
  | some req =>
    let previousChoiceIds := hist.map (fun h => h.choiceId)
    let prevOk :=
      match req.previousChoices with
      | none => true
      | some reqs => reqs.all (fun r => previousChoiceIds.contains r)
    let forbOk :=
      match req.forbiddenChoices with
      | none => true
      | some fs => !(fs.any (fun f => previousChoiceIds.contains f))
    prevOk && forbOk

/-- GameEngine.getAvailableChoices (`game-engine.js:276-306`). -/
def getAvailableChoices (e : GameEngine) : List Choice :=
  match getCurrentNode e with
  | none => []
  | some node =>
    match node.choices with
    | none => []
    | some cs => cs.filter (choicePasses e.choiceHistory)

/-- GameEngine.validateScenario (`game-engine.js:143-174`): required top-level
fields truthy, a `start` node, and every truthy `choice.nextNode` resolves
(the check `choice.nextNode && !scenario.nodes[choice.nextNode]` is skipped
when `nextNode` is absent or the empty string). -/
def validateScenario (sc : Scenario) : Bool :=
  truthyStr sc.id && sc.metadata.isSome && sc.nodes.isSome &&
  (match sc.nodes with
   | none => false
   | some ns =>
     (findNode ns "start").isSome &&
     ns.all (fun p =>
       match p.2.choices with
       | none => true
       | some cs =>
         cs.all (fun c =>
           match c.nextNode with
           | none => true
           | some nn => nn == "" || (findNode ns nn).isSome)))

/-- GameEngine.isScenarioComplete (`game-engine.js:312-315`):
`currentNode && currentNode.type === 'resolution'`. -/
def isScenarioComplete (e : GameEngine) : Bool :=
  match getCurrentNode e with
  | none => false
  | some n => n.type == some "resolution"

/-- GameEngine.canGoBack (`game-engine.js:321-323`). -/
def canGoBack (e : GameEngine) : Bool :=
  !e.choiceHistory.isEmpty

/-- The `userProgress` sub-object of the persisted data. -/
structure UserProgress where
  currentScenario : Option String
  currentNode : Option String
  choiceHistory : List HistoryEntry
  deriving DecidableEq, Repr

/-- The `statistics` sub-object of the persisted data; `strategiesUsed` is the
JS object `strategy -> count` as an association list. -/
structure Statistics where
  totalChoicesMade : Nat
  scenariosCompleted : Nat
  strategiesUsed : List (String × Nat)
  deriving DecidableEq, Repr

/-- The `userPreferences` sub-object of the persisted data. -/
structure UserPreferences where
  viewMode : String
  autoSave : Bool
  soundEnabled : Bool
  deriving DecidableEq, Repr

/-- The whole object stored under the `conflict-training-simulator` key
(`StorageManager.defaultState` shape). `completedScenarios` elements are
`Option String` because the JS code pushes `scenario.id` unchecked. -/
structure StorageData where
  userProgress : UserProgress
  completedScenarios : List (Option String)
  userPreferences : UserPreferences
  statistics : Statistics
  deriving DecidableEq, Repr

/-- StorageManager.defaultState (`part_000:9-33`). -/
def defaultState : StorageData :=
  { userProgress := { currentScenario := none, currentNode := none, choiceHistory := [] },
    completedScenarios := [],
    userPreferences := { viewMode := "visual-novel", autoSave := true, soundEnabled := true },
    statistics :=
      { totalChoicesMade := 0, scenariosCompleted := 0,
        strategiesUsed :=
          [("collaborating", 0), ("compromising", 0), ("competing", 0),
           ("accommodating", 0), ("avoiding", 0), ("active_listening", 0)] } }

/-- StorageManager.saveProgress (`part_000:74-86`): overwrite `userProgress`
and set `statistics.totalChoicesMade` to the history length. -/
def saveProgress (d : StorageData) (scenarioId : Option String)
    (nodeId : Option String) (choiceHistory : List HistoryEntry) : StorageData :=
  { d with
    userProgress :=
      { currentScenario := scenarioId, currentNode := nodeId,
        choiceHistory := choiceHistory },
    statistics := { d.statistics with totalChoicesMade := choiceHistory.length } }

/-- StorageManager.markScenarioComplete (`part_000:106-122`): append the id to
`completedScenarios` and bump the counter only when not already present, then
clear `userProgress`. -/
def markScenarioComplete (d : StorageData) (scenarioId : Option String) : StorageData :=
  let d1 :=
    if d.completedScenarios.contains scenarioId then d
    else
      { d with
        completedScenarios := d.completedScenarios ++ [scenarioId],
        statistics :=
          { d.statistics with
            scenariosCompleted := d.statistics.scenariosCompleted + 1 } }
  { d1 with
    userProgress := { currentScenario := none, currentNode := none, choiceHistory := [] } }

/-- StorageManager.recordStrategyUsage (`part_000:128-137`): bump the counter
when the key exists in `strategiesUsed`, otherwise do nothing. -/
def recordStrategyUsage (d : StorageData) (strategy : String) : StorageData :=
  if d.statistics.strategiesUsed.any (fun p => p.1 == strategy) then
    { d with
      statistics :=
        { d.statistics with
          strategiesUsed :=
            d.statistics.strategiesUsed.map
              (fun p => if p.1 == strategy then (p.1, p.2 + 1) else p) } }
  else d

/-- StorageManager.isScenarioCompleted (`part_000:172-175`). -/
def isScenarioCompleted (d : StorageData) (scenarioId : Option String) : Bool :=
  d.completedScenarios.contains scenarioId

/-- The three throw sites of GameEngine.makeChoice (`game-engine.js:182-195`). -/
inductive ChoiceError
  | noScenario
  | noChoices
  | choiceNotFound
  deriving DecidableEq, Repr

/-- GameEngine.makeChoice (`game-engine.js:181-232`). On success returns the
new engine state, the new storage state and the returned node
(`getCurrentNode` after the move, possibly `undefined`). -/
def makeChoice (e : GameEngine) (d : StorageData) (choiceId : String)
    (ts : String) : Except ChoiceError (GameEngine × StorageData × Option Node) :=
  if !(e.currentScenario.isSome && truthyStr e.currentNode) then
    .error .noScenario
  else
    match getCurrentNode e with
    | none => .error .noChoices
    | some currentNodeData =>
      match currentNodeData.choices with
      | none => .error .noChoices
      | some cs =>
        match cs.find? (fun c => c.id == choiceId) with
        | none => .error .choiceNotFound
        | some choice =>
          let hist := e.choiceHistory ++
            [{ nodeId := e.currentNode, choiceId := choiceId,
               choiceText := choice.text, strategy := choice.strategy,
               timestamp := ts }]
          let d1 :=
            if truthyStr choice.strategy then
              recordStrategyUsage d (choice.strategy.getD "")
            else d
          let e1 : GameEngine :=
            { e with currentNode := choice.nextNode, choiceHistory := hist }
          let scId := match e.currentScenario with
            | some sc => sc.id
            | none => none
          let d2 := saveProgress d1 scId e1.currentNode hist
          let nextNode := getCurrentNode e1
          let d3 := if isScenarioComplete e1 then markScenarioComplete d2 scId else d2
          .ok (e1, d3, nextNode)

/-- GameEngine.goBack (`game-engine.js:238-258`). Returns `null` (here `none`)
when history is empty, leaving all state untouched; otherwise pops the last
entry, moves back to its `nodeId`, persists, and returns the now-current
node. -/
def goBack (e : GameEngine) (d : StorageData) :
    Option (GameEngine × StorageData × Option Node) :=
  match e.choiceHistory.getLast? with
  | none => none
  | some lastChoice =>
    let e1 : GameEngine :=
      { e with currentNode := lastChoice.nodeId,
               choiceHistory := e.choiceHistory.dropLast }
    let scId := match e.currentScenario with
      | some sc => sc.id
      | none => none
    let d1 := saveProgress d scId e1.currentNode e1.choiceHistory
    some (e1, d1, getCurrentNode e1)

/-- GameEngine.restartScenario (`game-engine.js:350-366`): no-op when nothing
is loaded, else reset position and history for the same scenario and persist. -/
def restartScenario (e : GameEngine) (d : StorageData) : GameEngine × StorageData :=
  match e.currentScenario with
  | none => (e, d)
  | some sc =>
    let e1 : GameEngine :=
      { e with currentNode := some "start", choiceHistory := [] }
    (e1, saveProgress d sc.id (some "start") [])

/-- The total node count used by getProgress
(`Object.keys(this.currentScenario.nodes).length`). -/
def totalNodeCount (sc : Scenario) : Nat :=
  (sc.nodes.getD []).length

/-- The record returned by GameEngine.getProgress; the percentage is kept in
exact rational arithmetic. -/
structure ProgressInfo where
  currentNode : Option String
  choicesMade : Nat
  progressPercent : ℚ
  canGoBack : Bool
  isComplete : Bool
  deriving DecidableEq, Repr

/-- GameEngine.getProgress (`game-engine.js:329-345`). -/
def getProgress (e : GameEngine) : Option ProgressInfo :=
  match e.currentScenario with
  | none => none
  | some sc =>
    let totalNodes : ℚ := (totalNodeCount sc : ℚ)
    let currentProgress : ℚ := (e.choiceHistory.length : ℚ) + 1
    some
      { currentNode := e.currentNode,
        choicesMade := e.choiceHistory.length,
        progressPercent := min ((currentProgress / totalNodes) * 100) 100,
        canGoBack := canGoBack e,
        isComplete := isScenarioComplete e }

/-- The failure kinds of GameEngine.loadScenario (`game-engine.js:98-136`):
id missing from the index, fetch/parse failure (`ContentUnavailable`), or
structural validation failure (`InvalidGraph`). -/
inductive LoadError
  | notInIndex
  | contentUnavailable
  | invalidGraph
  deriving DecidableEq, Repr

/-- GameEngine.loadScenario (`game-engine.js:98-136`). `inIndex` models the
index lookup, `fetched` the outcome of the content fetch+parse. The engine
fields are assigned only after validation passes, so a failed load leaves the
active scenario, `currentNode` and history exactly as they were. -/
def loadScenario (e : GameEngine) (inIndex : Bool) (fetched : Option Scenario) :
    Except LoadError GameEngine :=
  if !inIndex then .error .notInIndex
  else
    match fetched with
    | none => .error .contentUnavailable
    | some scenarioData =>
      if validateScenario scenarioData then
        .ok { e with currentScenario := some scenarioData,
                     currentNode := some "start", choiceHistory := [] }
      else .error .invalidGraph

/-- A persisted snapshot as handed to resumeFromProgress
(`storage.loadProgress()` result shape). -/
structure SavedProgress where
  currentScenario : Option String
  currentNode : Option String
  choiceHistory : Option (List HistoryEntry)
  deriving DecidableEq, Repr

/-- GameEngine.resumeFromProgress (`game-engine.js:372-384`): load the graph,
then adopt `currentNode` and `choiceHistory` verbatim from the snapshot
(`savedProgress.choiceHistory || []`), with no re-validation of the snapshot. -/
def resumeFromProgress (e : GameEngine) (inIndex : Bool)
    (fetched : Option Scenario) (saved : SavedProgress) :
    Except LoadError (GameEngine × Option Node) :=
  match loadScenario e inIndex fetched with
  | .error err => .error err
  | .ok e1 =>
    let e2 : GameEngine :=
      { e1 with currentNode := saved.currentNode,
                choiceHistory := saved.choiceHistory.getD [] }
    .ok (e2, getCurrentNode e2)

/-- The engine state produced by the `GameEngine` constructor
(`game-engine.js:8-10`): no scenario, `currentNode = 'start'`, empty history. -/
def freshEngine : GameEngine :=
  { currentScenario := none, currentNode := some "start", choiceHistory := [] }

/-- Projection of a `makeChoice` result onto the resulting engine state
(`none` when the call threw). -/
def okEngine (r : Except ChoiceError (GameEngine × StorageData × Option Node)) :
    Option GameEngine :=
  match r with
  | .ok p => some p.1
  | .error _ => none

/-- The availability predicate exactly as the spec words it (claim C2): a
choice is available iff it has no requirements, or every id in
`requirements.previousChoices` occurs as a `choiceId` in history and no id in
`requirements.forbiddenChoices` does. -/
def SpecAvailable (hist : List HistoryEntry) (c : Choice) : Prop :=
  c.requirements = none ∨
  ∃ req, c.requirements = some req ∧
    (∀ ps, req.previousChoices = some ps →
      ∀ x ∈ ps, x ∈ hist.map HistoryEntry.choiceId) ∧
    (∀ fs, req.forbiddenChoices = some fs →
      ∀ x ∈ fs, x ∉ hist.map HistoryEntry.choiceId)

/-- Structural validity exactly as claim C3 words it: the top-level fields
`id`, `metadata`, `nodes` are present, `nodes["start"]` exists, and every
`choice.nextNode` that is present resolves to an existing node id. -/
def SpecStructurallyValid (sc : Scenario) : Prop :=
  sc.id.isSome = true ∧ sc.metadata.isSome = true ∧
  ∃ ns, sc.nodes = some ns ∧ (findNode ns "start").isSome = true ∧
    ∀ p ∈ ns, ∀ cs, p.2.choices = some cs → ∀ c ∈ cs,
      ∀ nn, c.nextNode = some nn → (findNode ns nn).isSome = true

/-- Structural validity as the code actually checks it: `id` must moreover be
truthy (non-empty), and a `nextNode` equal to `""` is falsy in JS and escapes
the resolution check. -/
def SpecStructurallyValidAmended (sc : Scenario) : Prop :=
  truthyStr sc.id = true ∧ sc.metadata.isSome = true ∧
  ∃ ns, sc.nodes = some ns ∧ (findNode ns "start").isSome = true ∧
    ∀ p ∈ ns, ∀ cs, p.2.choices = some cs → ∀ c ∈ cs,
      ∀ nn, c.nextNode = some nn → nn ≠ "" → (findNode ns nn).isSome = true

/-- Does `k` name an existing node of `sc`? (claim C7's "valid node id"). -/
def nodeIdOk (sc : Scenario) (k : Option String) : Bool :=
  match sc.nodes, k with
  | some ns, some s => (findNode ns s).isSome
  | _, _ => false

/-- Claim C7's invariant: `sc` is the active scenario, `currentNode` names an
existing node, and so does every `nodeId` recorded in history. -/
def engineInv (sc : Scenario) (e : GameEngine) : Bool :=
  (e.currentScenario == some sc) && nodeIdOk sc e.currentNode &&
    e.choiceHistory.all (fun h => nodeIdOk sc h.nodeId)

/-- Every choice of every node carries a truthy (present and non-empty)
`nextNode` — the side condition claim C7 needs beyond successful validation. -/
def allNextTruthy (sc : Scenario) : Bool :=
  (sc.nodes.getD []).all (fun p =>
    (p.2.choices.getD []).all (fun c => truthyStr c.nextNode))

/-- A sequence of advances, each required to use a choice id that
`getAvailableChoices` returns at that step (the premise of claim C4); each
element pairs the chosen id with the timestamp of the call. -/
def advanceAvail (e : GameEngine) (d : StorageData) :
    List (String × String) → Option (GameEngine × StorageData)
  | [] => some (e, d)
  | (cid, ts) :: rest =>
    if cid ∈ (getAvailableChoices e).map Choice.id then
      match makeChoice e d cid ts with
      | .ok r => advanceAvail r.1 r.2.1 rest
      | .error _ => none
    else none

/-- `goBack` iterated `n` times, failing if any step reports empty history. -/
def goBackN : Nat → GameEngine → StorageData → Option (GameEngine × StorageData)
  | 0, e, d => some (e, d)
  | n + 1, e, d =>
    (goBackN n e d).bind (fun q => (goBack q.1 q.2).map (fun r => (r.1, r.2.1)))

/-- A choice gated behind a prerequisite that has not been made. -/
def cGated : Choice :=
  { id := "a", text := "ta", strategy := some "competing", nextNode := some "start",
    requirements := some { previousChoices := some ["z"], forbiddenChoices := none } }

/-- A scenario whose start node offers only the gated choice `cGated`. -/
def scGated : Scenario :=
  { id := some "s1", metadata := some { title := some "t" },
    nodes := some [("start", { type := some "scene", choices := some [cGated] })] }

/-- The engine right after loading `scGated`. -/
def eGated : GameEngine := initEngine scGated

/-- A choice whose `nextNode` is present but the empty string. -/
def cEmptyNext : Choice :=
  { id := "a", text := "ta", strategy := none, nextNode := some "",
    requirements := none }

/-- A scenario containing `cEmptyNext`: its `nextNode` is present and resolves
to no node, yet validation accepts it (`""` is falsy in JS). -/
def scEmptyNext : Scenario :=
  { id := some "s2", metadata := some { title := none },
    nodes := some [("start", { type := some "scene", choices := some [cEmptyNext] })] }

/-- A choice with no `nextNode` field at all. -/
def cNoNext : Choice :=
  { id := "a", text := "ta", strategy := none, nextNode := none,
    requirements := none }

/-- A scenario that passes validation although advancing along its only choice
leaves `currentNode` undefined. -/
def scNoNext : Scenario :=
  { id := some "s3", metadata := some { title := none },
    nodes := some [("start", { type := some "scene", choices := some [cNoNext] })] }

/-- An ungated choice leading to the resolution node of `scRes`. -/
def cToEnd : Choice :=
  { id := "a", text := "go", strategy := some "collaborating",
    nextNode := some "end", requirements := none }

/-- A two-node scenario: `start` leads via `cToEnd` to the terminal node. -/
def scRes : Scenario :=
  { id := some "s4", metadata := some { title := some "t" },
    nodes := some
      [("start", { type := some "scene", choices := some [cToEnd] }),
       ("end", { type := some "resolution", choices := none })] }

/-- The history entry recorded when `cToEnd` is taken from `start` of `scRes`
at timestamp `"t"`. -/
def enA : HistoryEntry :=
  { nodeId := some "start", choiceId := "a", choiceText := "go",
    strategy := some "collaborating", timestamp := "t" }

/-- Engine and storage after advancing once along `cToEnd` in `scRes`. -/
def afterAdvance : GameEngine × StorageData :=
  (advanceAvail (initEngine scRes) defaultState [("a", "t")]).getD
    (initEngine scRes, defaultState)

/-- A stale snapshot: its `currentNode` names no node of `scRes`. -/
def savedStale : SavedProgress :=
  { currentScenario := some "s4", currentNode := some "ghost",
    choiceHistory := some [enA] }

/-- An ungated choice (no requirements). -/
def cPlain : Choice :=
  { id := "p", text := "tp", strategy := none, nextNode := some "start",
    requirements := none }

/-- A choice requiring that choice id "a" has already been made. -/
def cNeedsA : Choice :=
  { id := "n", text := "tn", strategy := none, nextNode := some "start",
    requirements := some { previousChoices := some ["a"], forbiddenChoices := none } }

/-- A choice forbidding that choice id "a" has been made. -/
def cNotA : Choice :=
  { id := "f", text := "tf", strategy := none, nextNode := some "start",
    requirements := some { previousChoices := none, forbiddenChoices := some ["a"] } }

/-- The three-choice node list of `scMix`. -/
def csMix : List Choice := [cPlain, cNeedsA, cNotA]

/-- A scenario mixing ungated, prerequisite-gated and forbidden-gated choices. -/
def scMix : Scenario :=
  { id := some "s5", metadata := some { title := some "t" },
    nodes := some [("start", { type := some "scene", choices := some csMix })] }

/-- An engine on `scMix` whose history already contains choice id "a". -/
def eMix : GameEngine :=
  { currentScenario := some scMix, currentNode := some "start",
    choiceHistory :=
      [{ nodeId := some "start", choiceId := "a", choiceText := "x",
         strategy := none, timestamp := "t0" }] }

/-- The full result triple of the advance "a" from the start of `scRes`
(used to instantiate theorems at a concrete successful call). -/
def rRes : GameEngine × StorageData × Option Node :=
  (makeChoice (initEngine scRes) defaultState "a" "t").toOption.getD
    (initEngine scRes, defaultState, none)

/-! ### Helper lemmas -/

theorem truthyStr_iff {k : Option String} :
    truthyStr k = true ↔ ∃ s, k = some s ∧ s ≠ "" := by
  cases k <;> simp [truthyStr]

theorem getCurrentNode_split {e : GameEngine} {node : Node}
    (h : getCurrentNode e = some node) :
    ∃ sc ns cn, e.currentScenario = some sc ∧ sc.nodes = some ns ∧
      e.currentNode = some cn ∧ cn ≠ "" ∧ findNode ns cn = some node := by
  unfold getCurrentNode at h
  split at h
  · exact absurd h (by simp)
  · rename_i sc hsc
    split at h
    · rename_i ht
      obtain ⟨cn, hcn, hne⟩ := truthyStr_iff.mp ht
      split at h
      · rename_i ns cn' hns hcn'
        rw [hcn] at hcn'
        cases hcn'
        exact ⟨sc, ns, cn, hsc, hns, hcn, hne, h⟩
      · exact absurd h (by simp)
    · exact absurd h (by simp)

theorem findNode_mem {ns : List (String × Node)} {k : String} {node : Node}
    (h : findNode ns k = some node) :
    ∃ p ∈ ns, p.1 = k ∧ p.2 = node := by
  unfold findNode at h
  cases hf : ns.find? (fun p => p.1 == k) with
  | none => rw [hf] at h; exact absurd h (by simp)
  | some p =>
    rw [hf] at h
    have hm := List.mem_of_find?_eq_some hf
    have hk := List.find?_some hf
    simp only [Option.map_some', Option.some.injEq] at h
    exact ⟨p, hm, by simpa using hk, h⟩

theorem choicePasses_iff {hist : List HistoryEntry} {c : Choice} :
    choicePasses hist c = true ↔ SpecAvailable hist c := by
  unfold choicePasses SpecAvailable
  cases hreq : c.requirements with
  | none => simp
  | some req =>
    simp only [Option.some.injEq, reduceCtorEq, false_or]
    constructor
    · intro h
      refine ⟨req, rfl, ?_, ?_⟩
      · intro ps hps x hx
        rw [Bool.and_eq_true] at h
        rw [hps] at h
        have := h.1
        rw [List.all_eq_true] at this
        simpa using this x hx
      · intro fs hfs x hx hmem
        rw [Bool.and_eq_true] at h
        rw [hfs] at h
        have := h.2
        simp only [Bool.not_eq_true', List.any_eq_false] at this
        exact absurd (by simpa using hmem) (by simpa using this x hx)
    · rintro ⟨req', hreq', h1, h2⟩
      cases hreq'
      rw [Bool.and_eq_true]
      constructor
      · cases hps : req.previousChoices with
        | none => rfl
        | some ps =>
          rw [List.all_eq_true]
          intro x hx
          simpa using h1 ps hps x hx
      · cases hfs : req.forbiddenChoices with
        | none => rfl
        | some fs =>
          simp only [Bool.not_eq_true', List.any_eq_false]
          intro x hx
          simpa using h2 fs hfs x hx

/-- C2: getAvailableChoices returns exactly the subset of the current node's
choices passing the spec's gating predicate (no requirements, or all
previousChoices made and no forbiddenChoices made), in node-definition order
(it is a sublist of the raw choice list). The embedding is a pure function of
the state, so the call modifies neither currentNodeId nor history. -/
theorem availableChoices_spec (e : GameEngine) (node : Node) (cs : List Choice)
    (h1 : getCurrentNode e = some node) (h2 : node.choices = some cs) :
    (getAvailableChoices e).Sublist cs ∧
    ∀ c, c ∈ getAvailableChoices e ↔ c ∈ cs ∧ SpecAvailable e.choiceHistory c := by
  have hav : getAvailableChoices e = cs.filter (choicePasses e.choiceHistory) := by
    unfold getAvailableChoices
    rw [h1]
    simp only [h2]
  rw [hav]
  refine ⟨List.filter_sublist cs, fun c => ?_⟩
  rw [List.mem_filter, choicePasses_iff]

/-- Witness for C2 at a concrete state: with history containing choice id "a",
the gated-in and gated-out choices of `scMix` are classified as the spec says. -/
theorem availableChoices_spec_witness :
    (getAvailableChoices eMix).Sublist csMix ∧
    ∀ c, c ∈ getAvailableChoices eMix ↔ c ∈ csMix ∧ SpecAvailable eMix.choiceHistory c :=
  availableChoices_spec eMix { type := some "scene", choices := some csMix } csMix rfl rfl

theorem makeChoice_not_found {e : GameEngine} {d : StorageData}
    {node : Node} {cs : List Choice} {cid ts : String}
    (h1 : getCurrentNode e = some node) (h2 : node.choices = some cs)
    (h3 : cs.find? (fun c => c.id == cid) = none) :
    makeChoice e d cid ts = .error .choiceNotFound := by
  obtain ⟨sc, ns, cn, hsc, hns, hcn, hne, hfind⟩ := getCurrentNode_split h1
  have hguard : (e.currentScenario.isSome && truthyStr e.currentNode) = true := by
    rw [hsc, hcn]
    simp [truthyStr, hne]
  unfold makeChoice
  rw [hguard]
  simp only [Bool.not_true, Bool.false_eq_true, if_false, h1]
  simp only [h2, h3]

theorem makeChoice_found {e : GameEngine} {d : StorageData}
    {node : Node} {cs : List Choice} {choice : Choice} {cid ts : String}
    (h1 : getCurrentNode e = some node) (h2 : node.choices = some cs)
    (h3 : cs.find? (fun c => c.id == cid) = some choice) :
    makeChoice e d cid ts =
      .ok (let e1 : GameEngine :=
             { e with
               currentNode := choice.nextNode,
               choiceHistory := e.choiceHistory ++
                 [{ nodeId := e.currentNode, choiceId := cid,
                    choiceText := choice.text, strategy := choice.strategy,
                    timestamp := ts }] }
           let d1 := if truthyStr choice.strategy then
               recordStrategyUsage d (choice.strategy.getD "") else d
           let scId := match e.currentScenario with
             | some sc => sc.id
             | none => none
           let d2 := saveProgress d1 scId e1.currentNode e1.choiceHistory
           let d3 := if isScenarioComplete e1 then markScenarioComplete d2 scId else d2
           (e1, d3, getCurrentNode e1)) := by
  obtain ⟨sc, ns, cn, hsc, hns, hcn, hne, hfind⟩ := getCurrentNode_split h1
  have hguard : (e.currentScenario.isSome && truthyStr e.currentNode) = true := by
    rw [hsc, hcn]
    simp [truthyStr, hne]
  unfold makeChoice
  rw [hguard]
  simp only [Bool.not_true, Bool.false_eq_true, if_false, h1]
  simp only [h2, h3]

theorem makeChoice_ok_split {e : GameEngine} {d : StorageData}
    {cid ts : String} {r : GameEngine × StorageData × Option Node}
    (h : makeChoice e d cid ts = .ok r) :
    ∃ node cs choice, getCurrentNode e = some node ∧ node.choices = some cs ∧
      cs.find? (fun c => c.id == cid) = some choice ∧
      r.1 = { e with
              currentNode := choice.nextNode,
              choiceHistory := e.choiceHistory ++
                [{ nodeId := e.currentNode, choiceId := cid,
                   choiceText := choice.text, strategy := choice.strategy,
                   timestamp := ts }] } := by
  unfold makeChoice at h
  split at h
  · exact absurd h (by simp)
  · split at h
    · exact absurd h (by simp)
    · rename_i node hnode
      split at h
      · exact absurd h (by simp)
      · rename_i cs hcs
        split at h
        · exact absurd h (by simp)
        · rename_i choice hchoice
          simp only [Except.ok.injEq] at h
          exact ⟨node, cs, choice, hnode, hcs, hchoice, by rw [← h]⟩

/-- C1 (amended): makeChoice distinguishes only "unknown" ids: a choice id
absent from the current node's raw choice list fails with the choice-not-found
error (the throw happens before any mutation, so `currentNode` and history are
untouched), while an id present in the raw list is accepted and advances even
when `getAvailableChoices()` excludes it — the source performs no
availability check and has no distinct ChoiceNotAvailable failure. -/
theorem makeChoice_unknown_vs_gated (e : GameEngine) (d : StorageData)
    (node : Node) (cs : List Choice) (cid ts : String)
    (h1 : getCurrentNode e = some node) (h2 : node.choices = some cs) :
    (cid ∉ cs.map Choice.id → makeChoice e d cid ts = .error .choiceNotFound) ∧
    (cid ∈ cs.map Choice.id → (makeChoice e d cid ts).isOk = true) := by
  constructor
  · intro hno
    have h3 : cs.find? (fun c => c.id == cid) = none := by
      rw [List.find?_eq_none]
      intro x hx hbeq
      exact hno (List.mem_map.mpr ⟨x, hx, by simpa using hbeq⟩)
    exact makeChoice_not_found h1 h2 h3
  · intro hyes
    obtain ⟨x, hx, hid⟩ := List.mem_map.mp hyes
    have hsome : (cs.find? (fun c => c.id == cid)).isSome = true :=
      List.find?_isSome.mpr ⟨x, hx, by simp [hid]⟩
    cases hf : cs.find? (fun c => c.id == cid) with
    | none => rw [hf] at hsome; exact absurd hsome (by simp)
    | some choice => rw [makeChoice_found h1 h2 hf]; rfl

/-- Counterexample to C1 as stated: in `scGated` the id "a" is present in the
raw choice list of the start node but excluded by getAvailableChoices (its
previousChoices requirement is unmet); the claim says makeChoice must fail
with ChoiceNotAvailable, but the code accepts it and changes the state. -/
theorem makeChoice_gated_id_accepted :
    getCurrentNode eGated = some { type := some "scene", choices := some [cGated] } ∧
    "a" ∈ [cGated].map Choice.id ∧
    (getAvailableChoices eGated).map Choice.id = [] ∧
    (makeChoice eGated defaultState "a" "t").isOk = true ∧
    okEngine (makeChoice eGated defaultState "a" "t") ≠ some eGated := by
  decide

/-- Witness for C1 (amended) at a concrete state: an id absent from the raw
list is rejected as not found, while the gated-out id "a" is accepted. -/
theorem makeChoice_unknown_vs_gated_witness :
    makeChoice eGated defaultState "zzz" "t" = .error .choiceNotFound ∧
    (makeChoice eGated defaultState "a" "t").isOk = true :=
  ⟨(makeChoice_unknown_vs_gated eGated defaultState
      { type := some "scene", choices := some [cGated] } [cGated] "zzz" "t"
      (by decide) rfl).1 (by decide),
   (makeChoice_unknown_vs_gated eGated defaultState
      { type := some "scene", choices := some [cGated] } [cGated] "a" "t"
      (by decide) rfl).2 (by decide)⟩

/-- C5: goBack on empty history reports the no-history condition (the source
returns null without touching any state — the modelled `none` result — never a
crash); on non-empty history it removes exactly the last HistoryEntry, sets
currentNode to that entry's nodeId (the node the choice was made from), and
returns the node that is now current. -/
theorem goBack_spec (e : GameEngine) (d : StorageData) :
    (e.choiceHistory = [] → goBack e d = none) ∧
    ∀ (l : List HistoryEntry) (en : HistoryEntry), e.choiceHistory = l ++ [en] →
      ∃ d1, goBack e d =
        some ({ e with currentNode := en.nodeId, choiceHistory := l }, d1,
          getCurrentNode { e with currentNode := en.nodeId, choiceHistory := l }) := by
  constructor
  · intro h
    unfold goBack
    rw [h]
    rfl
  · intro l en h
    unfold goBack
    rw [h, List.getLast?_concat, List.dropLast_concat]
    exact ⟨_, rfl⟩

/-- Witness for C5: goBack from the freshly loaded `scRes` reports no history;
after one advance it pops the single entry and lands back on `start`. -/
theorem goBack_spec_witness :
    goBack (initEngine scRes) defaultState = none ∧
    ∃ d1, goBack afterAdvance.1 afterAdvance.2 =
      some ({ afterAdvance.1 with currentNode := enA.nodeId, choiceHistory := [] }, d1,
        getCurrentNode { afterAdvance.1 with currentNode := enA.nodeId, choiceHistory := [] }) :=
  ⟨(goBack_spec (initEngine scRes) defaultState).1 rfl,
   (goBack_spec afterAdvance.1 afterAdvance.2).2 [] enA (by decide)⟩

/-- C6: for any state with a loaded scenario, restartScenario keeps the same
scenario loaded, resets currentNode to "start" and clears the history; the
operation is total (no error conditions). -/
theorem restartScenario_spec (e : GameEngine) (d : StorageData) (sc : Scenario)
    (h : e.currentScenario = some sc) :
    (restartScenario e d).1.currentScenario = some sc ∧
    (restartScenario e d).1.currentNode = some "start" ∧
    (restartScenario e d).1.choiceHistory = [] := by
  unfold restartScenario
  rw [h]
  exact ⟨by simp [h], rfl, rfl⟩

/-- Witness for C6 at a concrete mid-scenario state. -/
theorem restartScenario_spec_witness :
    (restartScenario afterAdvance.1 afterAdvance.2).1.currentScenario = some scRes ∧
    (restartScenario afterAdvance.1 afterAdvance.2).1.currentNode = some "start" ∧
    (restartScenario afterAdvance.1 afterAdvance.2).1.choiceHistory = [] :=
  restartScenario_spec afterAdvance.1 afterAdvance.2 scRes (by decide)

/-- C9: for every state with a loaded scenario, getProgress returns a record
whose progressPercent equals min(100, 100 * (history.length + 1) /
totalNodeCount) in exact rational arithmetic. -/
theorem getProgress_percent_spec (e : GameEngine) (sc : Scenario)
    (h : e.currentScenario = some sc) :
    ∃ p, getProgress e = some p ∧
      p.progressPercent =
        min 100 (100 * ((e.choiceHistory.length : ℚ) + 1) / (totalNodeCount sc : ℚ)) := by
  unfold getProgress
  rw [h]
  refine ⟨_, rfl, ?_⟩
  rw [min_comm, mul_comm, mul_div_assoc]

/-- Witness for C9 after one advance in `scRes` (2 nodes, 1 choice made). -/
theorem getProgress_percent_spec_witness :
    ∃ p, getProgress afterAdvance.1 = some p ∧
      p.progressPercent =
        min 100 (100 * ((afterAdvance.1.choiceHistory.length : ℚ) + 1) /
          (totalNodeCount scRes : ℚ)) :=
  getProgress_percent_spec afterAdvance.1 scRes (by decide)

/-- C8: resumeFromProgress first loads the referenced graph and fails exactly
when that load fails, propagating the loader's error; on success it adopts
currentNodeId and history verbatim from the snapshot with no re-validation, so
it succeeds for every snapshot whose graph loads, stale or not. -/
theorem resumeFromProgress_spec (e : GameEngine) (inIndex : Bool)
    (fetched : Option Scenario) (saved : SavedProgress) :
    ((resumeFromProgress e inIndex fetched saved).isOk =
      (loadScenario e inIndex fetched).isOk) ∧
    (∀ err, loadScenario e inIndex fetched = .error err →
      resumeFromProgress e inIndex fetched saved = .error err) ∧
    (∀ e1, loadScenario e inIndex fetched = .ok e1 →
      resumeFromProgress e inIndex fetched saved =
        .ok ({ e1 with currentNode := saved.currentNode,
                       choiceHistory := saved.choiceHistory.getD [] },
          getCurrentNode { e1 with currentNode := saved.currentNode,
                                   choiceHistory := saved.choiceHistory.getD [] })) := by
  unfold resumeFromProgress
  cases hl : loadScenario e inIndex fetched with
  | error err => exact ⟨rfl, fun _ h => by simp_all, fun _ h => by simp_all⟩
  | ok e1 => exact ⟨rfl, fun _ h => by simp_all, fun e2 h => by simp_all⟩

/-- Witness for C8 with a stale snapshot: `savedStale.currentNode` names no
node of `scRes`, yet resume succeeds and adopts it verbatim. -/
theorem resumeFromProgress_spec_witness :
    resumeFromProgress freshEngine true (some scRes) savedStale =
      .ok ({ initEngine scRes with currentNode := savedStale.currentNode,
                                   choiceHistory := savedStale.choiceHistory.getD [] },
        getCurrentNode { initEngine scRes with
                         currentNode := savedStale.currentNode,
                         choiceHistory := savedStale.choiceHistory.getD [] }) :=
  (resumeFromProgress_spec freshEngine true (some scRes) savedStale).2.2
    (initEngine scRes) rfl

theorem nextNode_check_iff (ns : List (String × Node)) (c : Choice) :
    (match c.nextNode with
     | none => true
     | some nn => nn == "" || (findNode ns nn).isSome) = true
    ↔ ∀ nn, c.nextNode = some nn → nn ≠ "" → (findNode ns nn).isSome = true := by
  cases h : c.nextNode with
  | none => simp
  | some nn =>
    simp only [Bool.or_eq_true, beq_iff_eq, Option.some.injEq]
    constructor
    · rintro (h1 | h2) nn' hnn' hne
      · subst hnn'; exact absurd h1 hne
      · subst hnn'; exact h2
    · intro h1
      by_cases he : nn = ""
      · exact Or.inl he
      · exact Or.inr (h1 nn rfl he)

theorem node_choices_check_iff (ns : List (String × Node)) (node : Node) :
    (match node.choices with
     | none => true
     | some cs =>
       cs.all (fun c =>
         match c.nextNode with
         | none => true
         | some nn => nn == "" || (findNode ns nn).isSome)) = true
    ↔ ∀ cs, node.choices = some cs → ∀ c ∈ cs,
        ∀ nn, c.nextNode = some nn → nn ≠ "" → (findNode ns nn).isSome = true := by
  cases h : node.choices with
  | none => simp
  | some cs =>
    simp only [List.all_eq_true, Option.some.injEq]
    constructor
    · intro h1 cs' hcs' c hc
      subst hcs'
      exact (nextNode_check_iff ns c).mp (h1 c hc)
    · intro h1 c hc
      exact (nextNode_check_iff ns c).mpr (h1 cs rfl c hc)

theorem validateScenario_iff (sc : Scenario) :
    validateScenario sc = true ↔ SpecStructurallyValidAmended sc := by
  unfold validateScenario SpecStructurallyValidAmended
  cases hns : sc.nodes with
  | none => simp
  | some ns =>
    simp only [Option.isSome_some, Bool.and_true, Bool.and_eq_true, List.all_eq_true,
      Option.some.injEq]
    constructor
    · rintro ⟨⟨hid, hmeta⟩, hstart, hall⟩
      refine ⟨hid, hmeta, ns, rfl, hstart, ?_⟩
      intro p hp cs hcs c hc nn hnn hne
      exact (node_choices_check_iff ns p.2).mp (hall p hp) cs hcs c hc nn hnn hne
    · rintro ⟨hid, hmeta, ns', hns', hstart, hall⟩
      cases hns'
      refine ⟨⟨hid, hmeta⟩, hstart, ?_⟩
      intro p hp
      exact (node_choices_check_iff ns p.2).mpr (fun cs hcs c hc nn hnn hne =>
        hall p hp cs hcs c hc nn hnn hne)

/-- C3 (amended): structural validation — and hence load of a fetched,
index-listed document — succeeds exactly when the top-level fields id,
metadata and nodes are present with a truthy (non-empty) id, nodes["start"]
exists, and every choice.nextNode that is present and non-empty resolves to an
existing node id (a nextNode that is the empty string is falsy in JS and
escapes the check). On failure loadScenario raises InvalidGraph before
assigning any engine field, so the active scenario, currentNodeId and history
are left unchanged (no partial adoption). -/
theorem validateScenario_load_iff (sc : Scenario) (e : GameEngine) (inIndex : Bool) :
    (validateScenario sc = true ↔ SpecStructurallyValidAmended sc) ∧
    ((loadScenario e inIndex (some sc)).isOk = true ↔
      (inIndex = true ∧ SpecStructurallyValidAmended sc)) := by
  refine ⟨validateScenario_iff sc, ?_⟩
  unfold loadScenario
  cases inIndex with
  | false => simp [Except.isOk, Except.toBool]
  | true =>
    simp only [Bool.not_true, Bool.false_eq_true, if_false, true_and]
    cases hv : validateScenario sc with
    | false =>
      rw [← validateScenario_iff sc, hv]
      simp [Except.isOk, Except.toBool]
    | true =>
      rw [← validateScenario_iff sc, hv]
      simp [Except.isOk, Except.toBool]

/-- Counterexample to C3 as stated: `scEmptyNext` has a choice whose nextNode
is present (the string "") and resolves to no node, so by the claim its load
must fail; but "" is falsy in JS, the check is skipped, and validation and
load both succeed. -/
theorem validateScenario_claim_counterexample :
    validateScenario scEmptyNext = true ∧
    (loadScenario freshEngine true (some scEmptyNext)).isOk = true ∧
    ¬ SpecStructurallyValid scEmptyNext := by
  refine ⟨by decide, by decide, ?_⟩
  rintro ⟨hid, hmeta, ns, hns, hstart, hall⟩
  have hns2 : ns = [("start", { type := some "scene", choices := some [cEmptyNext] })] := by
    have : scEmptyNext.nodes =
        some [("start", { type := some "scene", choices := some [cEmptyNext] })] := rfl
    rw [this] at hns
    exact (Option.some.injEq _ _).mp hns.symm
  subst hns2
  have hbad := hall ("start", { type := some "scene", choices := some [cEmptyNext] })
    (by simp) [cEmptyNext] rfl cEmptyNext (by simp) "" rfl
  simp [findNode, cEmptyNext] at hbad

theorem makeChoice_ok_of_available {e : GameEngine} {d : StorageData}
    {cid : String} (ts : String)
    (h : cid ∈ (getAvailableChoices e).map Choice.id) :
    (makeChoice e d cid ts).isOk = true := by
  unfold getAvailableChoices at h
  cases hg : getCurrentNode e with
  | none => rw [hg] at h; exact absurd h (by simp)
  | some node =>
    rw [hg] at h
    cases hc : node.choices with
    | none => simp only [hc] at h; exact absurd h (by simp)
    | some cs =>
      simp only [hc] at h
      obtain ⟨x, hx, hid⟩ := List.mem_map.mp h
      have hxcs : x ∈ cs := (List.mem_filter.mp hx).1
      have hsome : (cs.find? (fun c => c.id == cid)).isSome = true :=
        List.find?_isSome.mpr ⟨x, hxcs, by simp [hid]⟩
      cases hf : cs.find? (fun c => c.id == cid) with
      | none => rw [hf] at hsome; exact absurd hsome (by simp)
      | some choice => rw [makeChoice_found hg hc hf]; rfl

theorem advanceAvail_goBackN :
    ∀ (l : List (String × String)) (e : GameEngine) (d : StorageData)
      (p : GameEngine × StorageData),
      advanceAvail e d l = some p →
      ∃ q, goBackN l.length p.1 p.2 = some q ∧
        q.1.currentScenario = e.currentScenario ∧
        q.1.currentNode = e.currentNode ∧
        q.1.choiceHistory = e.choiceHistory := by
  intro l
  induction l with
  | nil =>
    intro e d p h
    unfold advanceAvail at h
    simp only [Option.some.injEq] at h
    subst h
    exact ⟨(e, d), rfl, rfl, rfl, rfl⟩
  | cons hd rest ih =>
    intro e d p h
    obtain ⟨cid, ts⟩ := hd
    unfold advanceAvail at h
    split at h
    · cases hm : makeChoice e d cid ts with
      | error err => rw [hm] at h; exact absurd h (by simp)
      | ok r =>
        rw [hm] at h
        obtain ⟨q', hq', hsc, hcn, hch⟩ := ih r.1 r.2.1 p h
        obtain ⟨node, cs, choice, h1, h2, h3, hshape⟩ := makeChoice_ok_split hm
        have hrsc : r.1.currentScenario = e.currentScenario := by rw [hshape]
        have hrch : r.1.choiceHistory = e.choiceHistory ++
            [{ nodeId := e.currentNode, choiceId := cid, choiceText := choice.text,
               strategy := choice.strategy, timestamp := ts }] := by rw [hshape]
        have hq'ch : q'.1.choiceHistory = e.choiceHistory ++
            [{ nodeId := e.currentNode, choiceId := cid, choiceText := choice.text,
               strategy := choice.strategy, timestamp := ts }] := by rw [hch, hrch]
        have hgb : goBack q'.1 q'.2 =
            some (⟨q'.1.currentScenario, e.currentNode, e.choiceHistory⟩,
              saveProgress q'.2
                (match q'.1.currentScenario with
                 | some sc => sc.id
                 | none => none)
                e.currentNode e.choiceHistory,
              getCurrentNode ⟨q'.1.currentScenario, e.currentNode, e.choiceHistory⟩) := by
          unfold goBack
          rw [hq'ch, List.getLast?_concat, List.dropLast_concat]
        simp only [List.length_cons]
        unfold goBackN
        rw [hq', Option.some_bind, hgb, Option.map_some']
        refine ⟨_, rfl, ?_, rfl, rfl⟩
        simpa using hsc.trans hrsc
    · exact absurd h (by simp)

/-- C4: starting from the freshly loaded state (currentNode "start", empty
history), after any sequence of successful advances each using a choice id
returned by getAvailableChoices at that step, calling goBack the same number
of times brings the navigator back to "start" with empty history, on the same
scenario. -/
theorem advance_goBack_round_trip (sc : Scenario) (d : StorageData)
    (l : List (String × String)) (p : GameEngine × StorageData)
    (h : advanceAvail (initEngine sc) d l = some p) :
    ∃ q, goBackN l.length p.1 p.2 = some q ∧
      q.1.currentScenario = some sc ∧ q.1.currentNode = some "start" ∧
      q.1.choiceHistory = [] :=
  advanceAvail_goBackN l (initEngine sc) d p h

/-- Witness for C4: one available advance in `scRes` followed by one goBack
restores the initial state. -/
theorem advance_goBack_round_trip_witness :
    ∃ q, goBackN 1 afterAdvance.1 afterAdvance.2 = some q ∧
      q.1.currentScenario = some scRes ∧ q.1.currentNode = some "start" ∧
      q.1.choiceHistory = [] :=
  advance_goBack_round_trip scRes defaultState [("a", "t")] afterAdvance (by decide)

theorem goBack_some_split {e : GameEngine} {d : StorageData}
    {r : GameEngine × StorageData × Option Node} (h : goBack e d = some r) :
    ∃ en, e.choiceHistory.getLast? = some en ∧
      r.1 = ⟨e.currentScenario, en.nodeId, e.choiceHistory.dropLast⟩ := by
  unfold goBack at h
  cases hl : e.choiceHistory.getLast? with
  | none => rw [hl] at h; exact absurd h (by simp)
  | some en =>
    rw [hl] at h
    simp only [Option.some.injEq] at h
    exact ⟨en, rfl, by rw [← h]⟩

theorem loadScenario_ok_split {e : GameEngine} {inIndex : Bool}
    {fetched : Option Scenario} {e1 : GameEngine}
    (h : loadScenario e inIndex fetched = .ok e1) :
    ∃ sc, fetched = some sc ∧ validateScenario sc = true ∧
      e1 = ⟨some sc, some "start", []⟩ := by
  unfold loadScenario at h
  split at h
  · exact absurd h (by simp)
  · split at h
    · exact absurd h (by simp)
    · split at h
      · rename_i x sc hv
        simp only [Except.ok.injEq] at h
        exact ⟨sc, rfl, hv, h.symm⟩
      · exact absurd h (by simp)

theorem engineInv_iff {sc : Scenario} {e : GameEngine} :
    engineInv sc e = true ↔
      e.currentScenario = some sc ∧ nodeIdOk sc e.currentNode = true ∧
      ∀ h ∈ e.choiceHistory, nodeIdOk sc h.nodeId = true := by
  unfold engineInv
  simp [List.all_eq_true, and_assoc]

theorem allNextTruthy_spec {sc : Scenario} {ns : List (String × Node)}
    {p : String × Node} {cs : List Choice} {c : Choice}
    (hall : allNextTruthy sc = true) (hns : sc.nodes = some ns) (hp : p ∈ ns)
    (hcs : p.2.choices = some cs) (hc : c ∈ cs) :
    ∃ nn, c.nextNode = some nn ∧ nn ≠ "" := by
  unfold allNextTruthy at hall
  rw [hns] at hall
  simp only [Option.getD_some, List.all_eq_true] at hall
  have := hall p hp
  rw [hcs] at this
  simp only [Option.getD_some, List.all_eq_true] at this
  exact truthyStr_iff.mp (this c hc)

theorem nodeIdOk_of_findNode {sc : Scenario} {ns : List (String × Node)}
    {nn : String} (hns : sc.nodes = some ns)
    (hfound : (findNode ns nn).isSome = true) :
    nodeIdOk sc (some nn) = true := by
  unfold nodeIdOk
  rw [hns]
  exact hfound

/-- C7 (amended): for every graph accepted by load-time validation in which,
additionally, every choice carries a truthy (present, non-empty) nextNode,
the invariant "currentNodeId names an existing node of the active graph (and
so does every nodeId recorded in history)" holds after load and is preserved
by every successful makeChoice, goBack and restartScenario. The extra
hypothesis is needed because validation checks choice.nextNode only when that
field is truthy, so successful validation alone does not suffice (see the
counterexample). -/
theorem currentNode_invariant (sc : Scenario) (e : GameEngine) (d : StorageData)
    (hv : validateScenario sc = true) (hant : allNextTruthy sc = true)
    (hinv : engineInv sc e = true) :
    (∀ e0 e1, loadScenario e0 true (some sc) = .ok e1 → engineInv sc e1 = true) ∧
    (∀ cid ts r, makeChoice e d cid ts = .ok r → engineInv sc r.1 = true) ∧
    (∀ r, goBack e d = some r → engineInv sc r.1 = true) ∧
    engineInv sc (restartScenario e d).1 = true := by
  obtain ⟨hid, hmeta, ns, hns, hstart, hresolve⟩ := (validateScenario_iff sc).mp hv
  obtain ⟨hesc, hecur, hehist⟩ := engineInv_iff.mp hinv
  refine ⟨?_, ?_, ?_, ?_⟩
  · intro e0 e1 hl
    obtain ⟨sc', hsc', hv', he1⟩ := loadScenario_ok_split hl
    have hsc2 : sc' = sc := by
      simpa using hsc'.symm
    subst hsc2
    rw [he1]
    exact engineInv_iff.mpr ⟨rfl, nodeIdOk_of_findNode hns hstart, by simp⟩
  · intro cid ts r hm
    obtain ⟨node, cs, choice, h1, h2, h3, hshape⟩ := makeChoice_ok_split hm
    obtain ⟨scx, ns2, cn, hscx, hns2, hcn, hne, hfind⟩ := getCurrentNode_split h1
    have hscsc : scx = sc := by
      rw [hesc] at hscx
      simpa using hscx.symm
    subst hscsc
    have hns3 : ns2 = ns := by
      rw [hns] at hns2
      simpa using hns2.symm
    subst hns3
    obtain ⟨p, hp, hp1, hp2⟩ := findNode_mem hfind
    have hcmem : choice ∈ cs := List.mem_of_find?_eq_some h3
    have hcs : p.2.choices = some cs := by rw [hp2]; exact h2
    obtain ⟨nn, hnn, hnnne⟩ := allNextTruthy_spec hant hns hp hcs hcmem
    have hok := hresolve p hp cs hcs choice hcmem nn hnn hnnne
    rw [hshape]
    refine engineInv_iff.mpr ⟨hesc, ?_, ?_⟩
    · rw [hnn]
      exact nodeIdOk_of_findNode hns hok
    · intro h' hmem
      rcases List.mem_append.mp hmem with hold | hnew
      · exact hehist h' hold
      · have : h' = { nodeId := e.currentNode, choiceId := cid,
                      choiceText := choice.text, strategy := choice.strategy,
                      timestamp := ts } := by simpa using hnew
        rw [this]
        exact hecur
  · intro r hg
    obtain ⟨en, hlast, hr1⟩ := goBack_some_split hg
    have hwhole : e.choiceHistory.dropLast ++ [en] = e.choiceHistory :=
      List.dropLast_append_getLast? en (Option.mem_def.mpr hlast)
    have henmem : en ∈ e.choiceHistory := by
      rw [← hwhole]
      exact List.mem_append_right _ (List.mem_singleton_self en)
    rw [hr1]
    refine engineInv_iff.mpr ⟨hesc, hehist en henmem, ?_⟩
    intro h' hmem
    exact hehist h' ((List.dropLast_sublist e.choiceHistory).subset hmem)
  · have hrestart : (restartScenario e d).1 =
        { e with currentNode := some "start", choiceHistory := [] } := by
      unfold restartScenario
      rw [hesc]
    rw [hrestart]
    exact engineInv_iff.mpr ⟨hesc, nodeIdOk_of_findNode hns hstart, by simp⟩

/-- Counterexample to C7 as stated: `scNoNext` passes validation (its only
choice has no nextNode field, so the load-time check is skipped), the initial
state satisfies the invariant and the choice "a" is available, yet after
advancing along it the engine's currentNode is undefined (`none`) — not a
valid node id — so successful validation alone does not suffice. -/
theorem validated_graph_reaches_undefined_node :
    validateScenario scNoNext = true ∧
    engineInv scNoNext (initEngine scNoNext) = true ∧
    "a" ∈ (getAvailableChoices (initEngine scNoNext)).map Choice.id ∧
    (okEngine (makeChoice (initEngine scNoNext) defaultState "a" "t")).map
      (fun e1 => engineInv scNoNext e1) = some false ∧
    (okEngine (makeChoice (initEngine scNoNext) defaultState "a" "t")).map
      GameEngine.currentNode = some none := by
  decide

/-- Witness for C7 (amended) on `scRes`, whose choices all carry truthy
nextNode fields: the invariant holds after the advance "a" and after restart. -/
theorem currentNode_invariant_witness :
    engineInv scRes rRes.1 = true ∧
    engineInv scRes (restartScenario (initEngine scRes) defaultState).1 = true :=
  ⟨(currentNode_invariant scRes (initEngine scRes) defaultState (by decide) (by decide)
      (by decide)).2.1 "a" "t" rRes rfl,
   (currentNode_invariant scRes (initEngine scRes) defaultState (by decide) (by decide)
      (by decide)).2.2.2⟩

theorem recordStrategyUsage_completed (d : StorageData) (s : String) :
    (recordStrategyUsage d s).completedScenarios = d.completedScenarios := by
  unfold recordStrategyUsage
  split <;> rfl

theorem recordStrategyUsage_scenariosCompleted (d : StorageData) (s : String) :
    (recordStrategyUsage d s).statistics.scenariosCompleted =
      d.statistics.scenariosCompleted := by
  unfold recordStrategyUsage
  split <;> rfl

theorem saveProgress_completed (d0 : StorageData) (a b : Option String)
    (h : List HistoryEntry) :
    (saveProgress d0 a b h).completedScenarios = d0.completedScenarios := rfl

theorem saveProgress_scenariosCompleted (d0 : StorageData) (a b : Option String)
    (h : List HistoryEntry) :
    (saveProgress d0 a b h).statistics.scenariosCompleted =
      d0.statistics.scenariosCompleted := rfl

theorem markScenarioComplete_userProgress (d0 : StorageData) (i : Option String) :
    (markScenarioComplete d0 i).userProgress = ⟨none, none, []⟩ := rfl

theorem markScenarioComplete_completed (d0 : StorageData) (i : Option String) :
    (markScenarioComplete d0 i).completedScenarios =
      if i ∈ d0.completedScenarios then d0.completedScenarios
      else d0.completedScenarios ++ [i] := by
  unfold markScenarioComplete
  by_cases h : i ∈ d0.completedScenarios
  · have hc : d0.completedScenarios.contains i = true := by simpa using h
    simp [hc, h]
  · have hc : d0.completedScenarios.contains i = false := by simpa using h
    simp [hc, h]

theorem markScenarioComplete_scenariosCompleted (d0 : StorageData) (i : Option String) :
    (markScenarioComplete d0 i).statistics.scenariosCompleted =
      d0.statistics.scenariosCompleted +
        (if i ∈ d0.completedScenarios then 0 else 1) := by
  unfold markScenarioComplete
  by_cases h : i ∈ d0.completedScenarios
  · have hc : d0.completedScenarios.contains i = true := by simpa using h
    simp [hc, h]
  · have hc : d0.completedScenarios.contains i = false := by simpa using h
    simp [hc, h]

theorem makeChoice_ok_full {e : GameEngine} {d : StorageData} {cid ts : String}
    {r : GameEngine × StorageData × Option Node}
    (hm : makeChoice e d cid ts = .ok r) :
    ∃ node cs choice, getCurrentNode e = some node ∧ node.choices = some cs ∧
      cs.find? (fun c => c.id == cid) = some choice ∧
      r = (⟨e.currentScenario, choice.nextNode, e.choiceHistory ++
             [⟨e.currentNode, cid, choice.text, choice.strategy, ts⟩]⟩,
           (if isScenarioComplete ⟨e.currentScenario, choice.nextNode, e.choiceHistory ++
                [⟨e.currentNode, cid, choice.text, choice.strategy, ts⟩]⟩ then
              markScenarioComplete
                (saveProgress
                  (if truthyStr choice.strategy then
                    recordStrategyUsage d (choice.strategy.getD "") else d)
                  (match e.currentScenario with
                   | some sc => sc.id
                   | none => none)
                  choice.nextNode
                  (e.choiceHistory ++
                    [⟨e.currentNode, cid, choice.text, choice.strategy, ts⟩]))
                (match e.currentScenario with
                 | some sc => sc.id
                 | none => none)
            else
              saveProgress
                (if truthyStr choice.strategy then
                  recordStrategyUsage d (choice.strategy.getD "") else d)
                (match e.currentScenario with
                 | some sc => sc.id
                 | none => none)
                choice.nextNode
                (e.choiceHistory ++
                  [⟨e.currentNode, cid, choice.text, choice.strategy, ts⟩])),
           getCurrentNode ⟨e.currentScenario, choice.nextNode, e.choiceHistory ++
             [⟨e.currentNode, cid, choice.text, choice.strategy, ts⟩]⟩) := by
  obtain ⟨node, cs, choice, h1, h2, h3, hshape⟩ := makeChoice_ok_split hm
  have heval := @makeChoice_found e d node cs choice cid ts h1 h2 h3
  rw [hm] at heval
  exact ⟨node, cs, choice, h1, h2, h3, Except.ok.inj heval⟩

/-- C10: when a successful makeChoice lands on a node of type "resolution",
the persisted storage records the scenario id as completed at most once: for
every prior storage state with duplicate-free completedScenarios the posterior
list is still duplicate-free and contains the id, the list and the
scenariosCompleted counter change only if the id was not already present, the
persisted userProgress is cleared, and the in-memory engine keeps its
post-advance currentNode and history. -/
theorem markComplete_on_resolution (e : GameEngine) (d : StorageData) (sc : Scenario)
    (cid ts : String) (r : GameEngine × StorageData × Option Node)
    (hsc : e.currentScenario = some sc)
    (hm : makeChoice e d cid ts = .ok r)
    (hres : isScenarioComplete r.1 = true)
    (hnd : d.completedScenarios.Nodup) :
    r.2.1.userProgress = ⟨none, none, []⟩ ∧
    r.2.1.completedScenarios.Nodup ∧
    sc.id ∈ r.2.1.completedScenarios ∧
    (sc.id ∈ d.completedScenarios → r.2.1.completedScenarios = d.completedScenarios) ∧
    (sc.id ∉ d.completedScenarios →
      r.2.1.completedScenarios = d.completedScenarios ++ [sc.id]) ∧
    r.2.1.statistics.scenariosCompleted =
      d.statistics.scenariosCompleted +
        (if sc.id ∈ d.completedScenarios then 0 else 1) ∧
    r.1.currentScenario = some sc ∧
    (∃ choice : Choice, r.1.currentNode = choice.nextNode ∧
      r.1.choiceHistory = e.choiceHistory ++
        [⟨e.currentNode, cid, choice.text, choice.strategy, ts⟩]) := by
  obtain ⟨node, cs, choice, h1, h2, h3, hr⟩ := makeChoice_ok_full hm
  have hmatch : (match e.currentScenario with
      | some sc2 => sc2.id
      | none => none) = sc.id := by rw [hsc]
  rw [hmatch] at hr
  have hcond : isScenarioComplete
      (⟨e.currentScenario, choice.nextNode, e.choiceHistory ++
        [⟨e.currentNode, cid, choice.text, choice.strategy, ts⟩]⟩ : GameEngine) = true := by
    have hx : r.1 = ⟨e.currentScenario, choice.nextNode, e.choiceHistory ++
        [⟨e.currentNode, cid, choice.text, choice.strategy, ts⟩]⟩ := by rw [hr]
    rw [← hx]
    exact hres
  rw [if_pos hcond] at hr
  have hd3 : r.2.1 = markScenarioComplete
      (saveProgress
        (if truthyStr choice.strategy then
          recordStrategyUsage d (choice.strategy.getD "") else d)
        sc.id choice.nextNode
        (e.choiceHistory ++
          [⟨e.currentNode, cid, choice.text, choice.strategy, ts⟩]))
      sc.id := by rw [hr]
  have hDc : (saveProgress
      (if truthyStr choice.strategy then
        recordStrategyUsage d (choice.strategy.getD "") else d)
      sc.id choice.nextNode
      (e.choiceHistory ++
        [⟨e.currentNode, cid, choice.text, choice.strategy, ts⟩])).completedScenarios =
      d.completedScenarios := by
    rw [saveProgress_completed]
    split
    · exact recordStrategyUsage_completed d (choice.strategy.getD "")
    · rfl
  have hDs : (saveProgress
      (if truthyStr choice.strategy then
        recordStrategyUsage d (choice.strategy.getD "") else d)
      sc.id choice.nextNode
      (e.choiceHistory ++
        [⟨e.currentNode, cid, choice.text, choice.strategy, ts⟩])).statistics.scenariosCompleted =
      d.statistics.scenariosCompleted := by
    rw [saveProgress_scenariosCompleted]
    split
    · exact recordStrategyUsage_scenariosCompleted d (choice.strategy.getD "")
    · rfl
  refine ⟨?_, ?_, ?_, ?_, ?_, ?_, ?_, ?_⟩
  · rw [hd3]
    exact markScenarioComplete_userProgress _ _
  · rw [hd3, markScenarioComplete_completed, hDc]
    by_cases hmem : sc.id ∈ d.completedScenarios
    · simpa [hmem] using hnd
    · simp only [hmem, if_false]
      rw [List.nodup_append]
      refine ⟨hnd, List.nodup_singleton _, ?_⟩
      intro x hx hx'
      rw [List.mem_singleton] at hx'
      subst hx'
      exact hmem hx
  · rw [hd3, markScenarioComplete_completed, hDc]
    by_cases hmem : sc.id ∈ d.completedScenarios
    · simp [hmem]
    · simp [hmem]
  · intro hmem
    rw [hd3, markScenarioComplete_completed, hDc]
    simp [hmem]
  · intro hmem
    rw [hd3, markScenarioComplete_completed, hDc]
    simp [hmem]
  · rw [hd3, markScenarioComplete_scenariosCompleted, hDc, hDs]
  · rw [hr]
    exact hsc
  · exact ⟨choice, by rw [hr], by rw [hr]⟩

/-- Witness for C10: advancing from `start` of `scRes` onto its resolution
node marks "s4" complete exactly once, clears the persisted userProgress, and
keeps the in-memory post-advance state. -/
theorem markComplete_on_resolution_witness :
    rRes.2.1.userProgress = ⟨none, none, []⟩ ∧
    rRes.2.1.completedScenarios.Nodup ∧
    scRes.id ∈ rRes.2.1.completedScenarios ∧
    (scRes.id ∈ defaultState.completedScenarios →
      rRes.2.1.completedScenarios = defaultState.completedScenarios) ∧
    (scRes.id ∉ defaultState.completedScenarios →
      rRes.2.1.completedScenarios = defaultState.completedScenarios ++ [scRes.id]) ∧
    rRes.2.1.statistics.scenariosCompleted =
      defaultState.statistics.scenariosCompleted +
        (if scRes.id ∈ defaultState.completedScenarios then 0 else 1) ∧
    rRes.1.currentScenario = some scRes ∧
    (∃ choice : Choice, rRes.1.currentNode = choice.nextNode ∧
      rRes.1.choiceHistory = (initEngine scRes).choiceHistory ++
        [⟨(initEngine scRes).currentNode, "a", choice.text, choice.strategy, "t"⟩]) :=
  markComplete_on_resolution (initEngine scRes) defaultState scRes "a" "t" rRes
    rfl rfl (by decide) (by decide)
